import Mathlib

/-!
Verification development for the MarketDataService repository.

The Python sources under `src/services/yahoo_finance.py` and
`src/services/fallback_providers.py` are shallowly embedded below.
External collaborators (the yfinance client, the justETF HTTP endpoint,
the Redis cache backend) are modelled as oracle functions supplied in an
environment record; a call that can raise in Python is modelled as an
`Except`-valued oracle.  Python floats that carry prices are modelled as
`PVal` (either NaN or a rational number); timestamps are modelled as
integers (minutes).  `str.upper()` is modelled character-wise via
`Char.toUpper` (the sources only ever feed ASCII identifiers through it).
-/

set_option maxRecDepth 4000

/-- Python truthiness of an optional string: `None` and `""` are falsy. -/
def pyTruthyS : Option String → Bool
  | none => false
  | some s => s ≠ ""

/-- Python `a or b` on two optional strings (`d.get(x) or d.get(y)`). -/
def pyOrS (a b : Option String) : Option String :=
  match a with
  | none => b
  | some s => if s = "" then b else some s

/-- A Python float value carried in a price field: NaN or a rational. -/
inductive PVal where
  | nan : PVal
  | num : ℚ → PVal
  deriving DecidableEq

/-- Python truthiness of a float: `0.0` is falsy, NaN is truthy. -/
def pvFalsy : PVal → Bool
  | .nan => false
  | .num q => q == 0

/-- Python `d.get(x) or d.get(y)` on two optional price fields. -/
def pyOrP (a b : Option PVal) : Option PVal :=
  match a with
  | none => b
  | some v => if pvFalsy v then b else some v

/-- Invalidity test from the source: `price is None or math.isnan(float(price)) or float(price) <= 0`. -/
def priceInvalid : Option PVal → Bool
  | none => true
  | some .nan => true
  | some (.num q) => q ≤ 0

/-- Python `symbol.split(".")[0]`: the part before the first dot. -/
def splitFirst (s : String) : String :=
  ⟨s.data.takeWhile (fun c => c ≠ '.')⟩

/-- Python `symbol.rsplit(".", 1)[0]`: everything before the last dot, or the whole string when there is no dot. -/
def rsplitBase (s : String) : String :=
  if s.data.contains '.' then ⟨((s.data.reverse.dropWhile (fun c => c ≠ '.')).tail).reverse⟩ else s

/-- Python `symbol.split(".")[-1]`: the part after the last dot. -/
def afterLastDot (s : String) : String :=
  ⟨(s.data.reverse.takeWhile (fun c => c ≠ '.')).reverse⟩

/-- `[A-Z0-9]` character class on an already-uppercased character. -/
def isAlnumU (c : Char) : Bool :=
  c.isUpper || c.isDigit

/-- The `$` anchor of Python `re.match`: it matches at the end of the
string or just before one string-final newline. -/
def tailDollar : List Char → Bool
  | [] => true
  | [c] => c == '\n'
  | _ => false

/-- Matcher for the anchored pattern `^[A-Z]{2}[A-Z0-9]{9}\d$` under
Python `re.match` semantics: consume two letters, nine alphanumerics and
one digit, then the `$` anchor must accept the remainder. -/
def reMatchIsinDollar (l : List Char) : Bool :=
  match l with
  | c0 :: c1 :: c2 :: c3 :: c4 :: c5 :: c6 :: c7 :: c8 :: c9 :: c10 :: c11 :: rest =>
      c0.isUpper && c1.isUpper && isAlnumU c2 && isAlnumU c3 && isAlnumU c4 &&
      isAlnumU c5 && isAlnumU c6 && isAlnumU c7 && isAlnumU c8 && isAlnumU c9 &&
      isAlnumU c10 && c11.isDigit && tailDollar rest
  | _ => false

/-- Embedding of `is_valid_isin` from `src/services/yahoo_finance.py`:
reject the empty string, then uppercase and match the anchored pattern. -/
def is_valid_isin (s : String) : Bool :=
  if s = "" then false
  else reMatchIsinDollar (s.data.map Char.toUpper)

/-- Modelled from the spec wording of §4.1/§8: structural shape of an
ISIN candidate — 2 letters, 9 alphanumerics, 1 trailing digit, 12
characters total. -/
def isinShape (l : List Char) : Bool :=
  l.length == 12 && (l.take 2).all Char.isUpper &&
    ((l.drop 2).take 9).all isAlnumU && (l.drop 11).all Char.isDigit

/-- Modelled from the spec wording: a string matches the pattern
`^[A-Z]{2}[A-Z0-9]{9}\d$` case-insensitively when, after uppercasing,
either the whole string has the 12-character shape, or its first 12
characters do and the remainder is a single string-final newline (the
Python `$` anchor). -/
def isinPatternCI (s : String) : Bool :=
  let u := s.data.map Char.toUpper
  isinShape u || (isinShape (u.take 12) && decide (u.drop 12 = ['\n']))

/-- Substring containment, Python `needle in hay`. -/
def listContainsSub (n : List Char) : List Char → Bool
  | [] => n.isEmpty
  | c :: t => n.isPrefixOf (c :: t) || listContainsSub n t

/-- Fuel-indexed left-to-right deletion of every occurrence of a
nonempty pattern, Python `s.replace(pat, "")`; with fuel at least the
length of the scanned list the fuel never runs out. -/
def removeOccsAux (pat : List Char) : Nat → List Char → List Char
  | _, [] => []
  | 0, l => l
  | fuel + 1, c :: rest =>
    if pat.isPrefixOf (c :: rest) then removeOccsAux pat fuel (rest.drop (pat.length - 1))
    else c :: removeOccsAux pat fuel rest

/-- Python `s.replace(t, "")`. -/
def pyReplaceEmpty (s t : String) : String :=
  ⟨removeOccsAux t.data s.data.length s.data⟩

/-- Whitespace stripped by Python `str.strip()` (ASCII fragment). -/
def isPySpace (c : Char) : Bool :=
  c == ' ' || c == '\t' || c == '\n' || c == '\r'

/-- Python `s.strip()`. -/
def pyStrip (s : String) : String :=
  ⟨((s.data.dropWhile isPySpace).reverse.dropWhile isPySpace).reverse⟩

/-- `TickerInfo` named tuple from `src/services/fallback_providers.py`. -/
structure TickerInfo where
  symbol : String
  name : String
  exchange : String
  currency : String
  deriving DecidableEq

/-- `InstrumentResponse` schema (isin, symbol, name, type, currency, exchange). -/
structure InstrumentResponse where
  isin : String
  symbol : String
  name : String
  type : String
  currency : String
  exchange : String
  deriving DecidableEq

/-- `QuoteResponse` schema; `price` holds the numeric value that the
source formats with four decimals, `time` the capture timestamp. -/
structure QuoteResponse where
  symbol : String
  price : ℚ
  currency : String
  time : ℤ
  deriving DecidableEq

/-- One candidate dict from `yf.Search(...).quotes`. -/
structure SearchQuote where
  symbol : Option String
  shortname : Option String
  longname : Option String
  deriving DecidableEq

/-- The fields of `yf.Ticker(symbol).info` read by the service. -/
structure Info where
  regularMarketPrice : Option PVal
  currentPrice : Option PVal
  longName : Option String
  shortName : Option String
  quoteType : Option String
  exchange : Option String
  currency : Option String
  deriving DecidableEq

/-- The fields of `yf.Ticker(symbol).fast_info` read by the service. -/
structure FastInfo where
  lastPrice : Option PVal
  regularMarketPrice : Option PVal
  currency : Option String
  deriving DecidableEq

/-- Exceptions are carried as their message text. -/
abbrev Err := String

/-- Oracle environment for the external collaborators of
`YahooFinanceService`: the yfinance search endpoint, full info, fast
info, and the justETF provider singleton.  Each may raise. -/
structure Env where
  search : String → Except Err (List SearchQuote)
  info : String → Except Err Info
  fast : String → Except Err FastInfo
  justetf : String → Except Err (Option TickerInfo)
  now : ℤ

namespace YahooFinanceService

/-- Which stage of the resolution pipeline issued a ticker-info probe. -/
inductive Stage where
  | primary
  | suffix
  | byName
  | justetfDirect
  | justetfCross
  deriving DecidableEq

/-- A recorded call to `_try_get_instrument_info`. -/
structure Probe where
  stage : Stage
  symbol : String
  deriving DecidableEq

/-- `EXCHANGE_MAP` from the source. -/
def EXCHANGE_MAP : List (String × String) :=
  [("L", "London Stock Exchange"), ("DE", "Deutsche BÃ¶rse"), ("PA", "Euronext Paris"),
   ("AS", "Euronext Amsterdam"), ("BR", "Euronext Brussels"), ("MI", "Borsa Italiana"),
   ("MC", "Bolsa de Madrid"), ("SW", "SIX Swiss Exchange"), ("TO", "Toronto Stock Exchange"),
   ("V", "TSX Venture Exchange"), ("AX", "Australian Securities Exchange"),
   ("HK", "Hong Kong Stock Exchange"), ("T", "Tokyo Stock Exchange"),
   ("SS", "Shanghai Stock Exchange"), ("SZ", "Shenzhen Stock Exchange")]

/-- `FALLBACK_SUFFIXES` from the source, in order. -/
def FALLBACK_SUFFIXES : List String :=
  [".DE", ".L", ".PA", ".AS", ".MI", ".SW", ".MC", ".BR", "", ".TO", ".AX", ".HK", ".T"]

/-- Association-list lookup with default, Python `dict.get(k, d)`. -/
def lookupD (m : List (String × String)) (k d : String) : String :=
  match m with
  | [] => d
  | (a, b) :: rest => if a = k then b else lookupD rest k d

/-- `_extract_exchange`: info field first, else symbol suffix via
`EXCHANGE_MAP`, else `"NYSE/NASDAQ"`. -/
def extractExchange (symbol : String) (info : Info) : String :=
  let e := info.exchange.getD ""
  if e ≠ "" then e
  else if symbol.data.contains '.' then
    let suf := afterLastDot symbol
    lookupD EXCHANGE_MAP suf suf
  else "NYSE/NASDAQ"

/-- `_try_get_instrument_info`: probe a symbol; reject on invalid price
or on a ghost record (base equals the ISIN and no long name), otherwise
build the `InstrumentResponse`.  Any raise inside is swallowed into
`none`, modelled by folding the info oracle error into `none`. -/
def tryGetInstrumentInfo (env : Env) (isin symbol : String) (quote : SearchQuote) :
    Option InstrumentResponse :=
  match env.info symbol with
  | .error _ => none
  | .ok info =>
    let price := pyOrP info.regularMarketPrice info.currentPrice
    if priceInvalid price then none
    else
      let symbol_base := splitFirst symbol
      if symbol_base = isin ∧ pyTruthyS info.longName = false then none
      else
        let quote_type := info.quoteType.getD "EQUITY"
        let instrument_type := if quote_type = "ETF" then "etf" else "stock"
        some { isin := isin, symbol := symbol,
               name := info.longName.getD (info.shortName.getD (quote.shortname.getD symbol)),
               type := instrument_type,
               currency := info.currency.getD "USD",
               exchange := extractExchange symbol info }

/-- The `remove_terms` list of `_try_search_by_name_fallback`. -/
def remove_terms : List String :=
  ["UCITS", "ETF", "Acc", "Dist", "Class", "USD", "EUR", "GBP", "HANetf", "iShares",
   "Vanguard", "Amundi", "Invesco", "Xtrackers", "SPDR"]

/-- The name-cleaning step of `_try_search_by_name_fallback`: delete the
generic terms, strip, and revert to the original name when fewer than 4
characters remain. -/
def cleanName (name : String) : String :=
  let q := remove_terms.foldl (fun acc t => pyReplaceEmpty acc t) name
  let q := pyStrip q
  if q.data.length < 4 then name else q

/-- The candidate loop of `_try_search_by_name_fallback` over the first
three search results: skip missing symbols and symbols containing the
ISIN, probe the rest. -/
def probeNameCandidates (env : Env) (isin : String) :
    List SearchQuote → Option InstrumentResponse × List Probe
  | [] => (none, [])
  | q :: rest =>
    match q.symbol with
    | none => probeNameCandidates env isin rest
    | some sym =>
      if sym = "" then probeNameCandidates env isin rest
      else if listContainsSub isin.data sym.data then probeNameCandidates env isin rest
      else
        match tryGetInstrumentInfo env isin sym q with
        | some out => (some out, [⟨Stage.byName, sym⟩])
        | none =>
          ((probeNameCandidates env isin rest).1,
           ⟨Stage.byName, sym⟩ :: (probeNameCandidates env isin rest).2)

/-- `_try_search_by_name_fallback`: clean the name, re-search, and probe
up to three candidates; all raises are swallowed into `none`. -/
def trySearchByNameFallback (env : Env) (isin name : String) :
    Option InstrumentResponse × List Probe :=
  let search_query := cleanName name
  match env.search search_query with
  | .error _ => (none, [])
  | .ok quotes =>
    if quotes.isEmpty then (none, [])
    else probeNameCandidates env isin (quotes.take 3)

/-- The cross-pollination loop of `_try_justetf_fallback`: the suggested
ticker against every fallback suffix, skipping the suggestion itself. -/
def crossLoop (env : Env) (isin : String) (ti : TickerInfo) (base : String) :
    List String → Option InstrumentResponse × List Probe
  | [] => (none, [])
  | suf :: rest =>
    let candidate := base ++ suf
    if candidate = ti.symbol then crossLoop env isin ti base rest
    else
      match tryGetInstrumentInfo env isin candidate ⟨none, some ti.name, none⟩ with
      | some out => (some out, [⟨Stage.justetfCross, candidate⟩])
      | none =>
        ((crossLoop env isin ti base rest).1,
         ⟨Stage.justetfCross, candidate⟩ :: (crossLoop env isin ti base rest).2)

/-- `_try_justetf_fallback`: ask the provider, probe its suggestion,
cross-pollinate suffixes, re-try the name search, and finally return the
raw suggestion with type forced to `"etf"`; raises are swallowed. -/
def tryJustetfFallback (env : Env) (isin : String) :
    Option InstrumentResponse × List Probe :=
  match env.justetf isin with
  | .error _ => (none, [])
  | .ok none => (none, [])
  | .ok (some ti) =>
    let tr1 : List Probe := [⟨Stage.justetfDirect, ti.symbol⟩]
    match tryGetInstrumentInfo env isin ti.symbol ⟨none, some ti.name, none⟩ with
    | some out => (some out, tr1)
    | none =>
      let base_ticker := splitFirst ti.symbol
      let cross := crossLoop env isin ti base_ticker FALLBACK_SUFFIXES
      match cross.1 with
      | some out => (some out, tr1 ++ cross.2)
      | none =>
        let byNm := trySearchByNameFallback env isin ti.name
        match byNm.1 with
        | some out => (some out, tr1 ++ cross.2 ++ byNm.2)
        | none =>
          (some ⟨isin, ti.symbol, ti.name, "etf", ti.currency, ti.exchange⟩,
           tr1 ++ cross.2 ++ byNm.2)

/-- The suffix sweep of `search_by_isin`: the base symbol against every
fallback suffix, skipping the candidate equal to the original symbol. -/
def suffixLoop (env : Env) (isin : String) (quote : SearchQuote) (base original : String) :
    List String → Option InstrumentResponse × List Probe
  | [] => (none, [])
  | suf :: rest =>
    let candidate := base ++ suf
    if candidate = original then suffixLoop env isin quote base original rest
    else
      match tryGetInstrumentInfo env isin candidate quote with
      | some out => (some out, [⟨Stage.suffix, candidate⟩])
      | none =>
        ((suffixLoop env isin quote base original rest).1,
         ⟨Stage.suffix, candidate⟩ :: (suffixLoop env isin quote base original rest).2)

/-- Stages 3–6 of `search_by_isin`, run after a successful primary
search; every stage failure is folded into `none`. -/
def resolveStages (env : Env) (isin : String) (quotes : List SearchQuote) :
    Option InstrumentResponse × List Probe :=
  match quotes.head? with
  | none => tryJustetfFallback env isin
  | some quote =>
    let original_symbol := quote.symbol.getD ""
    if original_symbol = "" then tryJustetfFallback env isin
    else
      let tr1 : List Probe := [⟨Stage.primary, original_symbol⟩]
      match tryGetInstrumentInfo env isin original_symbol quote with
      | some out => (some out, tr1)
      | none =>
        let base_symbol := rsplitBase original_symbol
        let sweep :=
          if base_symbol = isin then (none, ([] : List Probe))
          else suffixLoop env isin quote base_symbol original_symbol FALLBACK_SUFFIXES
        match sweep.1 with
        | some out => (some out, tr1 ++ sweep.2)
        | none =>
          let raw_name := pyOrS quote.shortname quote.longname
          let byNm :=
            match raw_name with
            | some nm =>
              if nm = "" then (none, ([] : List Probe))
              else trySearchByNameFallback env isin nm
            | none => (none, ([] : List Probe))
          match byNm.1 with
          | some out => (some out, tr1 ++ sweep.2 ++ byNm.2)
          | none =>
            let jet := tryJustetfFallback env isin
            (jet.1, tr1 ++ sweep.2 ++ byNm.2 ++ jet.2)

/-- `YahooFinanceService.search_by_isin` with its probe trace.  Only an
exception of the initial primary search escapes; the validator runs
before any oracle call. -/
def search_by_isin (env : Env) (isin : String) :
    Except Err (Option InstrumentResponse) × List Probe :=
  if is_valid_isin isin = false then (.ok none, [])
  else
    match env.search isin with
    | .error e => (.error e, [])
    | .ok quotes =>
      (.ok (resolveStages env isin quotes).1, (resolveStages env isin quotes).2)

/-- The price-probe phase of `get_quote`: `fast_info` first, falling
back to `info` when `fast_info` raises; a raise of the fallback `info`
call propagates. -/
def quoteProbe (env : Env) (symbol : String) : Except Err (Option PVal × String) :=
  match env.fast symbol with
  | .ok fi => .ok (pyOrP fi.lastPrice fi.regularMarketPrice, fi.currency.getD "USD")
  | .error _ =>
    match env.info symbol with
    | .error e => .error e
    | .ok info => .ok (pyOrP info.regularMarketPrice info.currentPrice, info.currency.getD "USD")

/-- `base_part = symbol.split(".")[0] if "." in symbol else symbol`. -/
def basePartOf (symbol : String) : String :=
  if symbol.data.contains '.' then splitFirst symbol else symbol

/-- `get_quote` with the self-repair pass.  The source recurses without
a depth bound, so the embedding carries fuel; the second component
counts the quote-retrieval attempts actually performed.  Fuel `0` stands
for a truncated run and is only used with enough fuel in the theorems. -/
def get_quote (env : Env) : Nat → String → Except Err (Option QuoteResponse) × Nat
  | 0, _ => (.ok none, 0)
  | fuel + 1, symbol =>
    match quoteProbe env symbol with
    | .error e => (.error e, 1)
    | .ok (price, currency) =>
      let repair : Except Err (Option QuoteResponse) × Nat :=
        let base_part := basePartOf symbol
        if reMatchIsinDollar base_part.data then
          match (search_by_isin env base_part).1 with
          | .error e => (.error e, 1)
          | .ok (some better) =>
            if better.symbol ≠ symbol then
              ((get_quote env fuel better.symbol).1, (get_quote env fuel better.symbol).2 + 1)
            else (.ok none, 1)
          | .ok none => (.ok none, 1)
        else (.ok none, 1)
      match price with
      | some (.num q) =>
        if q ≤ 0 then repair
        else (.ok (some ⟨symbol, q, currency, env.now⟩), 1)
      | _ => repair

/-- The collection loop shared by both batch operations: a result goes
to the successes, otherwise a present error message goes to the errors,
keyed by the item. -/
def batchCollect {β : Type} :
    List (String × Option β × Option String) → List β × List (String × String)
  | [] => ([], [])
  | (_, some r, _) :: rest =>
    (r :: (batchCollect rest).1, (batchCollect rest).2)
  | (k, none, some msg) :: rest =>
    ((batchCollect rest).1, (k, msg) :: (batchCollect rest).2)
  | (_, none, none) :: rest => batchCollect rest

/-- `search_single_wrapper` inside `batch_search_by_isins`. -/
def searchWrapper (env : Env) (isin : String) :
    String × Option InstrumentResponse × Option String :=
  match (search_by_isin env isin).1 with
  | .error e => (isin, none, some e)
  | .ok none => (isin, none, some "No instrument found for ISIN")
  | .ok (some r) => (isin, some r, none)

/-- `batch_search_by_isins`: gather preserves input order, so the batch
is the collection of per-item wrapper outcomes. -/
def batch_search_by_isins (env : Env) (isins : List String) :
    List InstrumentResponse × List (String × String) :=
  batchCollect (isins.map (searchWrapper env))

/-- `get_quote_wrapper` inside `batch_get_quotes`. -/
def quoteWrapper (env : Env) (fuel : Nat) (symbol : String) :
    String × Option QuoteResponse × Option String :=
  match (get_quote env fuel symbol).1 with
  | .error e => (symbol, none, some e)
  | .ok none => (symbol, none, some "No quote data available")
  | .ok (some r) => (symbol, some r, none)

/-- `batch_get_quotes`. -/
def batch_get_quotes (env : Env) (fuel : Nat) (symbols : List String) :
    List QuoteResponse × List (String × String) :=
  batchCollect (symbols.map (quoteWrapper env fuel))

end YahooFinanceService

namespace JustETFProvider

/-- The page-level results of the BeautifulSoup/regex extraction
helpers, abstracted as oracles: `ticker` is the first match of the
ordered ticker regexes (already uppercased), `h1`/`title` the stripped
text of those elements, `hasText en` whether the page contains the
exchange name `en` in a text node, and `currencyMatch` the first match
of `EUR|USD|GBP|CHF` in the page text. -/
structure Page where
  ticker : Option String
  h1 : Option String
  title : Option String
  hasText : String → Bool
  currencyMatch : Option String

/-- Outcome of the HTTP GET issued by the provider: a transport failure
(`requests.RequestException`) or a response with a status code and a
parsed page. -/
inductive HttpOutcome where
  | netErr : HttpOutcome
  | resp : Nat → Page → HttpOutcome

/-- Mutable provider-instance state: the circuit-breaker timestamp and
the metadata cache (association list plus enabled flag).  Time is in
minutes. -/
structure ProviderState where
  blocked_until : Option ℤ
  cache : List (String × TickerInfo)
  cacheEnabled : Bool

/-- `EXCHANGE_TO_SUFFIX` from the source, in insertion order. -/
def EXCHANGE_TO_SUFFIX : List (String × String) :=
  [("XETRA", ".DE"), ("gettex", ".DE"), ("London Stock Exchange", ".L"),
   ("Euronext Paris", ".PA"), ("Euronext Amsterdam", ".AS"),
   ("Borsa Italiana", ".MI"), ("SIX Swiss Exchange", ".SW")]

/-- `MetadataCache.get`: absent on disabled cache or miss (I/O errors
are swallowed and also yield absent). -/
def cacheGet (st : ProviderState) (isin : String) : Option TickerInfo :=
  if st.cacheEnabled then
    match st.cache.find? (fun p => p.1 = isin) with
    | some p => some p.2
    | none => none
  else none

/-- `MetadataCache.set`: a no-op on disabled cache; failures swallowed. -/
def cacheSet (st : ProviderState) (isin : String) (info : TickerInfo) : ProviderState :=
  if st.cacheEnabled then { st with cache := (isin, info) :: st.cache } else st

/-- `_is_blocked`: blocked while `now < blocked_until`; otherwise the
field is reset to empty (the breaker self-clears on the check). -/
def isBlockedStep (st : ProviderState) (now : ℤ) : Bool × ProviderState :=
  match st.blocked_until with
  | some t => if now < t then (true, st) else (false, { st with blocked_until := none })
  | none => (false, { st with blocked_until := none })

/-- `_extract_name`: the `h1` text, else the title text before `"|"`,
stripped. -/
def extractName (p : Page) : Option String :=
  match p.h1 with
  | some t => some t
  | none =>
    match p.title with
    | some t => some (pyStrip ⟨t.data.takeWhile (fun c => c ≠ '|')⟩)
    | none => none

/-- `_extract_exchange`: first table entry whose exchange name occurs in
the page text; default suffix `".L"`. -/
def extractExchange (p : Page) : Option String × String :=
  match EXCHANGE_TO_SUFFIX.find? (fun e => p.hasText e.1) with
  | some e => (some e.1, e.2)
  | none => (none, ".L")

/-- Python `a or d` for an optional string with `""` falsy. -/
def pyOrDefault (o : Option String) (d : String) : String :=
  match o with
  | none => d
  | some s => if s = "" then d else s

/-- `JustETFProvider.search_by_isin` as a state transformer.  Returns
the new state, the result, and the number of network calls performed
(0 or 1).  Cache first; then the circuit breaker; HTTP 403 opens the
breaker for 10 minutes; other HTTP errors and transport failures are
swallowed into absent; a parsed result is cached before returning. -/
def search_by_isin (st : ProviderState) (now : ℤ) (http : String → HttpOutcome)
    (isin : String) : ProviderState × Option TickerInfo × Nat :=
  match cacheGet st isin with
  | some cached => (st, some cached, 0)
  | none =>
    let bs := isBlockedStep st now
    if bs.1 then (bs.2, none, 0)
    else
      match http isin with
      | .netErr => (bs.2, none, 1)
      | .resp status page =>
        if status = 403 then ({ bs.2 with blocked_until := some (now + 10) }, none, 1)
        else if 400 ≤ status then (bs.2, none, 1)
        else
          match page.ticker with
          | none => (bs.2, none, 1)
          | some ticker =>
            let name := extractName page
            let exch := extractExchange page
            let yahoo_symbol := ticker ++ exch.2
            let currency := page.currencyMatch
            let info : TickerInfo :=
              { symbol := yahoo_symbol,
                name := pyOrDefault name ticker,
                exchange := pyOrDefault exch.1 "Unknown",
                currency := pyOrDefault currency "EUR" }
            (cacheSet bs.2 isin info, some info, 1)

end JustETFProvider

/-- The ghost condition of `_try_get_instrument_info`: the symbol base
equals the ISIN and no truthy long name is reported. -/
def ghostCond (isin symbol : String) (info : Info) : Prop :=
  splitFirst symbol = isin ∧ pyTruthyS info.longName = false

/-- The probe validity rule on the price: present, numeric, not NaN and
strictly positive. -/
def priceValidP (info : Info) : Prop :=
  ∃ q : ℚ, pyOrP info.regularMarketPrice info.currentPrice = some (PVal.num q) ∧ 0 < q

/-- Successful component of a batch wrapper outcome. -/
def successOf {β : Type} (w : String × Option β × Option String) : Option β :=
  w.2.1

/-- Error component of a batch wrapper outcome, keyed by the item. -/
def errorOf {β : Type} (w : String × Option β × Option String) : Option (String × String) :=
  match w with
  | (k, none, some m) => some (k, m)
  | _ => none

/-- Secondary-provider suggestion used by the repair-chain scenario. -/
def tiA : TickerInfo := ⟨"XS0000000001", "Fund Alpha", "Unknown", "EUR"⟩

/-- Second secondary-provider suggestion of the repair-chain scenario. -/
def tiB : TickerInfo := ⟨"XS0000000002", "Fund Beta", "Unknown", "EUR"⟩

/-- Environment in which the primary search has no candidates, ticker
info always raises, fast info reports no price except for the final
symbol, and the secondary provider keeps suggesting a fresh ISIN-shaped
symbol without price data — each repair pass then corrects the symbol to
yet another unresolved ISIN. -/
def envRepairChain : Env :=
  { search := fun _ => .ok []
    info := fun _ => .error "info down"
    fast := fun s =>
      if s = "XS0000000002" then .ok ⟨some (.num 5), none, some "USD"⟩
      else .ok ⟨none, none, none⟩
    justetf := fun i =>
      if i = "XS0000000000" then .ok (some tiA)
      else if i = "XS0000000001" then .ok (some tiB)
      else .ok none
    now := 0 }

/-- Ticker info of a ghost record: positive price, no long name. -/
def infoGhost : Info := ⟨some (.num 100), none, none, none, none, none, none⟩

/-- Environment whose info oracle serves the ghost record for the
symbol `"US0378331005"`. -/
def envGhost : Env :=
  { search := fun _ => .ok []
    info := fun s => if s = "US0378331005" then .ok infoGhost else .error "no data"
    fast := fun _ => .error "no data"
    justetf := fun _ => .ok none
    now := 0 }

/-- Environment of the suffix-sweep skip scenario: the primary search
echoes the ISIN back as the candidate symbol and every probe fails. -/
def envSkip : Env :=
  { search := fun q =>
      if q = "IE00BK5BQT80" then .ok [⟨some "IE00BK5BQT80", none, none⟩] else .ok []
    info := fun _ => .error "no data"
    fast := fun _ => .error "no data"
    justetf := fun _ => .ok none
    now := 0 }

/-- Suggestion returned by the secondary provider in the degraded-answer
scenario. -/
def tiDeg : TickerInfo := ⟨"ZZZZ.DE", "Global Fund", "XETRA", "EUR"⟩

/-- Environment in which only the secondary provider answers, and no
probe of any symbol ever finds price data. -/
def envDegraded : Env :=
  { search := fun _ => .ok []
    info := fun _ => .error "no data"
    fast := fun _ => .error "no data"
    justetf := fun i => if i = "IE00B4L5Y983" then .ok (some tiDeg) else .ok none
    now := 0 }

/-- The three-item batch input of the partial-failure scenario. -/
def batchIsins : List String := ["US0000000001", "US0000000002", "US0000000003"]

/-- Environment for the batch scenario: the middle item's primary search
raises, the outer two resolve to a valid symbol. -/
def envBatch : Env :=
  { search := fun q =>
      if q = "US0000000002" then .error "boom"
      else if q = "US0000000001" ∨ q = "US0000000003" then
        .ok [⟨some "AAA", some "Alpha Corp", none⟩]
      else .ok []
    info := fun s =>
      if s = "AAA" then
        .ok ⟨some (.num 10), none, some "Alpha Corp Inc", none, none, some "NASDAQ", some "USD"⟩
      else .error "no data"
    fast := fun _ => .error "no data"
    justetf := fun _ => .ok none
    now := 0 }

/-- Environment of the successful self-repair scenario: the symbol
`"IE00BK5BQT80.SG"` has no price, its base resolves to `"NATO.L"`, and
`"NATO.L"` has a valid fast price. -/
def envRepairOk : Env :=
  { search := fun q =>
      if q = "IE00BK5BQT80" then .ok [⟨some "NATO.L", some "Defence Fund", none⟩] else .ok []
    info := fun s =>
      if s = "NATO.L" then
        .ok ⟨some (.num 50), none, some "Future of Defence", none, some "ETF", some "LSE", some "GBP"⟩
      else .error "no data"
    fast := fun s =>
      if s = "NATO.L" then .ok ⟨some (.num 50), none, some "GBP"⟩
      else .ok ⟨none, none, none⟩
    justetf := fun _ => .ok none
    now := 7 }

/-- A provider page with no extractable content. -/
def pageEmpty : JustETFProvider.Page := ⟨none, none, none, fun _ => false, none⟩

/-- An HTTP oracle that always answers 403. -/
def http403 : String → JustETFProvider.HttpOutcome := fun _ => .resp 403 pageEmpty

/-- Fresh provider state: no breaker, disabled cache. -/
def st0 : JustETFProvider.ProviderState := ⟨none, [], false⟩

/-- Provider state whose breaker is open until minute 10. -/
def stBlocked : JustETFProvider.ProviderState := ⟨some 10, [], false⟩

lemma bool_eq_of_iff {a b : Bool} (h : a = true ↔ b = true) : a = b := by
  cases a <;> cases b <;> simp_all

/-- The recursive-descent matcher agrees with the declarative shape description. -/
lemma reMatchIsinDollar_eq_shape (l : List Char) :
    reMatchIsinDollar l = (isinShape l || (isinShape (l.take 12) && decide (l.drop 12 = ['\n']))) := by
  apply bool_eq_of_iff
  rcases l with _ | ⟨c0, l⟩
  · simp [reMatchIsinDollar, isinShape]
  rcases l with _ | ⟨c1, l⟩
  · simp [reMatchIsinDollar, isinShape]
  rcases l with _ | ⟨c2, l⟩
  · simp [reMatchIsinDollar, isinShape]
  rcases l with _ | ⟨c3, l⟩
  · simp [reMatchIsinDollar, isinShape]
  rcases l with _ | ⟨c4, l⟩
  · simp [reMatchIsinDollar, isinShape]
  rcases l with _ | ⟨c5, l⟩
  · simp [reMatchIsinDollar, isinShape]
  rcases l with _ | ⟨c6, l⟩
  · simp [reMatchIsinDollar, isinShape]
  rcases l with _ | ⟨c7, l⟩
  · simp [reMatchIsinDollar, isinShape]
  rcases l with _ | ⟨c8, l⟩
  · simp [reMatchIsinDollar, isinShape]
  rcases l with _ | ⟨c9, l⟩
  · simp [reMatchIsinDollar, isinShape]
  rcases l with _ | ⟨c10, l⟩
  · simp [reMatchIsinDollar, isinShape]
  rcases l with _ | ⟨c11, rest⟩
  · simp [reMatchIsinDollar, isinShape]
  rcases rest with _ | ⟨c12, rest⟩
  · simp [reMatchIsinDollar, isinShape, tailDollar]
    tauto
  rcases rest with _ | ⟨c13, rest⟩
  · simp [reMatchIsinDollar, isinShape, tailDollar]
    tauto
  · simp [reMatchIsinDollar, isinShape, tailDollar]

/-- C8: `is_valid_isin` accepts exactly the strings matching
`^[A-Z]{2}[A-Z0-9]{9}\d$` case-insensitively (Python `re.match`
semantics); in particular `"US0378331005"` is accepted, `"INVALID"` and
the empty string are rejected. -/
theorem is_valid_isin_matches_pattern :
    (∀ s : String, is_valid_isin s = isinPatternCI s) ∧
    is_valid_isin "US0378331005" = true ∧
    is_valid_isin "INVALID" = false ∧
    is_valid_isin "" = false := by
  refine ⟨fun s => ?_, by decide, by decide, by decide⟩
  unfold is_valid_isin isinPatternCI
  by_cases h : s = ""
  · subst h
    simp [reMatchIsinDollar_eq_shape, isinShape]
  · simp [h, reMatchIsinDollar_eq_shape]

/-- C10: the validator accepts a 13-character input, a structurally
valid ISIN followed by one trailing newline, because the `$` anchor also
matches just before a string-final newline. -/
theorem is_valid_isin_accepts_trailing_newline :
    is_valid_isin "US0378331005\n" = true ∧ "US0378331005\n".length = 13 := by
  constructor
  · decide
  · rfl

/-- C1: the self-repair pass of `get_quote` is claimed to retry at most
once, bounding the chain of quote-retrieval attempts by two; the code
recurses with no depth bound, and in `envRepairChain` one external call
performs three quote-retrieval attempts (fuel 10 is ample, so the count
is not a truncation artifact). -/
theorem get_quote_attempt_chain_exceeds_two :
    (YahooFinanceService.get_quote envRepairChain 10 "XS0000000000").2 = 3 ∧
    2 < (YahooFinanceService.get_quote envRepairChain 10 "XS0000000000").2 := by
  exact ⟨rfl, by decide⟩

/-- C2: `search_by_isin` propagates an exception exactly when the
initial primary search call raises it (on a format-valid ISIN); every
later stage folds its failures into an absent result, so no other
exception escapes. -/
theorem search_raises_iff_initial_search_raises (env : Env) (isin : String) (e : Err) :
    (YahooFinanceService.search_by_isin env isin).1 = .error e ↔
      is_valid_isin isin = true ∧ env.search isin = .error e := by
  unfold YahooFinanceService.search_by_isin
  cases h : is_valid_isin isin with
  | false => simp [h]
  | true =>
    cases hs : env.search isin with
    | error e2 => simp [h, hs]
    | ok quotes => simp [h, hs]

lemma priceInvalid_eq_false_iff (p : Option PVal) :
    priceInvalid p = false ↔ ∃ q : ℚ, p = some (PVal.num q) ∧ 0 < q := by
  rcases p with _ | v
  · simp [priceInvalid]
  rcases v with _ | q
  · simp [priceInvalid]
  · constructor
    · intro h
      refine ⟨q, rfl, ?_⟩
      have := of_decide_eq_false h
      exact lt_of_not_le this
    · rintro ⟨q2, hq2, hpos⟩
      obtain rfl : q = q2 := by
        injection hq2 with h1
        injection h1
      exact decide_eq_false (not_le.mpr hpos)

/-- C4: a probe whose symbol base equals the ISIN and whose info lacks a
long name is rejected even with a valid positive price, and a probe is
accepted only when the price is valid and the ghost condition fails. -/
theorem ghost_probe_rejected (env : Env) (isin symbol : String) (quote : SearchQuote) :
    (∀ info : Info, env.info symbol = .ok info → ghostCond isin symbol info →
       YahooFinanceService.tryGetInstrumentInfo env isin symbol quote = none) ∧
    (∀ r, YahooFinanceService.tryGetInstrumentInfo env isin symbol quote = some r →
       ∃ info : Info, env.info symbol = .ok info ∧ priceValidP info ∧
         ¬ ghostCond isin symbol info) := by
  constructor
  · rintro info hinfo ⟨hbase, hlong⟩
    unfold YahooFinanceService.tryGetInstrumentInfo
    rw [hinfo]
    by_cases hp : priceInvalid (pyOrP info.regularMarketPrice info.currentPrice)
    · simp [hp]
    · simp only [Bool.not_eq_true] at hp
      simp [hp, hbase, hlong, ghostCond]
  · intro r hr
    unfold YahooFinanceService.tryGetInstrumentInfo at hr
    cases hinfo : env.info symbol with
    | error e => rw [hinfo] at hr; simp at hr
    | ok info =>
      rw [hinfo] at hr
      refine ⟨info, rfl, ?_, ?_⟩
      · by_cases hp : priceInvalid (pyOrP info.regularMarketPrice info.currentPrice)
        · simp [hp] at hr
        · simp only [Bool.not_eq_true] at hp
          exact (priceInvalid_eq_false_iff _).mp hp
      · intro hg
        obtain ⟨hg1, hg2⟩ := hg
        by_cases hp : priceInvalid (pyOrP info.regularMarketPrice info.currentPrice)
        · simp [hp] at hr
        · simp only [Bool.not_eq_true] at hp
          simp [hp, hg1, hg2] at hr

/-- Witness for C4: the documented example — symbol `"US0378331005"`
equal to the queried ISIN, price 100, no name — is rejected. -/
theorem ghost_probe_rejected_witness :
    envGhost.info "US0378331005" = .ok infoGhost ∧
    ghostCond "US0378331005" "US0378331005" infoGhost ∧
    priceValidP infoGhost ∧
    YahooFinanceService.tryGetInstrumentInfo envGhost "US0378331005" "US0378331005"
      ⟨none, none, none⟩ = none := by
  refine ⟨rfl, ⟨rfl, rfl⟩, ⟨100, rfl, by norm_num⟩, ?_⟩
  exact (ghost_probe_rejected envGhost "US0378331005" "US0378331005" ⟨none, none, none⟩).1
    infoGhost rfl ⟨rfl, rfl⟩

lemma probeNameCandidates_stage (env : Env) (isin : String) :
    ∀ (l : List SearchQuote) (p : YahooFinanceService.Probe),
      p ∈ (YahooFinanceService.probeNameCandidates env isin l).2 →
      p.stage = YahooFinanceService.Stage.byName := by
  intro l
  induction l with
  | nil => simp [YahooFinanceService.probeNameCandidates]
  | cons q rest ih =>
    intro p hp
    rw [YahooFinanceService.probeNameCandidates] at hp
    rcases hq : q.symbol with _ | sym
    · simp only [hq] at hp
      exact ih p hp
    · simp only [hq] at hp
      by_cases h1 : sym = ""
      · rw [if_pos h1] at hp
        exact ih p hp
      · rw [if_neg h1] at hp
        by_cases h2 : listContainsSub isin.data sym.data = true
        · rw [if_pos h2] at hp
          exact ih p hp
        · rw [if_neg h2] at hp
          rcases ht : YahooFinanceService.tryGetInstrumentInfo env isin sym q with _ | out
          · simp only [ht] at hp
            rcases List.mem_cons.mp hp with h | h
            · rw [h]
            · exact ih p h
          · simp only [ht] at hp
            rcases List.mem_singleton.mp hp with rfl
            rfl

lemma trySearchByNameFallback_stage (env : Env) (isin nm : String) :
    ∀ p ∈ (YahooFinanceService.trySearchByNameFallback env isin nm).2,
      p.stage = YahooFinanceService.Stage.byName := by
  intro p hp
  unfold YahooFinanceService.trySearchByNameFallback at hp
  rcases hs : env.search (YahooFinanceService.cleanName nm) with e | quotes
  · simp only [hs] at hp
    simp at hp
  · simp only [hs] at hp
    by_cases he : quotes.isEmpty = true
    · rw [if_pos he] at hp
      simp at hp
    · rw [if_neg he] at hp
      exact probeNameCandidates_stage env isin (quotes.take 3) p hp

lemma crossLoop_stage (env : Env) (isin : String) (ti : TickerInfo) (base : String) :
    ∀ (l : List String) (p : YahooFinanceService.Probe),
      p ∈ (YahooFinanceService.crossLoop env isin ti base l).2 →
      p.stage = YahooFinanceService.Stage.justetfCross := by
  intro l
  induction l with
  | nil => simp [YahooFinanceService.crossLoop]
  | cons suf rest ih =>
    intro p hp
    rw [YahooFinanceService.crossLoop] at hp
    by_cases h1 : base ++ suf = ti.symbol
    · rw [if_pos h1] at hp
      exact ih p hp
    · rw [if_neg h1] at hp
      rcases ht : YahooFinanceService.tryGetInstrumentInfo env isin (base ++ suf)
          ⟨none, some ti.name, none⟩ with _ | out
      · simp only [ht] at hp
        rcases List.mem_cons.mp hp with h | h
        · rw [h]
        · exact ih p h
      · simp only [ht] at hp
        rcases List.mem_singleton.mp hp with rfl
        rfl

lemma tryJustetfFallback_stage (env : Env) (isin : String) :
    ∀ p ∈ (YahooFinanceService.tryJustetfFallback env isin).2,
      p.stage ≠ YahooFinanceService.Stage.suffix := by
  intro p hp
  unfold YahooFinanceService.tryJustetfFallback at hp
  rcases hj : env.justetf isin with e | oti
  · simp only [hj] at hp
    simp at hp
  · rcases oti with _ | ti
    · simp only [hj] at hp
      simp at hp
    · simp only [hj] at hp
      rcases ht : YahooFinanceService.tryGetInstrumentInfo env isin ti.symbol
          ⟨none, some ti.name, none⟩ with _ | out
      all_goals simp only [ht] at hp
      · rcases hc : (YahooFinanceService.crossLoop env isin ti (splitFirst ti.symbol)
            YahooFinanceService.FALLBACK_SUFFIXES).1 with _ | out2
        all_goals simp only [hc] at hp
        · rcases hn : (YahooFinanceService.trySearchByNameFallback env isin ti.name).1 with _ | out3
          all_goals simp only [hn] at hp
          all_goals simp only [List.append_assoc, List.mem_append, List.mem_singleton] at hp
          all_goals rcases hp with rfl | hp | hp
          · intro hcon; exact YahooFinanceService.Stage.noConfusion hcon
          · rw [crossLoop_stage env isin ti (splitFirst ti.symbol)
              YahooFinanceService.FALLBACK_SUFFIXES p hp]
            intro hcon; exact YahooFinanceService.Stage.noConfusion hcon
          · rw [trySearchByNameFallback_stage env isin ti.name p hp]
            intro hcon; exact YahooFinanceService.Stage.noConfusion hcon
          · intro hcon; exact YahooFinanceService.Stage.noConfusion hcon
          · rw [crossLoop_stage env isin ti (splitFirst ti.symbol)
              YahooFinanceService.FALLBACK_SUFFIXES p hp]
            intro hcon; exact YahooFinanceService.Stage.noConfusion hcon
          · rw [trySearchByNameFallback_stage env isin ti.name p hp]
            intro hcon; exact YahooFinanceService.Stage.noConfusion hcon
        · simp only [List.mem_append, List.mem_singleton] at hp
          rcases hp with rfl | hp
          · intro hcon; exact YahooFinanceService.Stage.noConfusion hcon
          · rw [crossLoop_stage env isin ti (splitFirst ti.symbol)
              YahooFinanceService.FALLBACK_SUFFIXES p hp]
            intro hcon; exact YahooFinanceService.Stage.noConfusion hcon
      · rcases List.mem_singleton.mp hp with rfl
        intro hcon; exact YahooFinanceService.Stage.noConfusion hcon

/-- C5: when the base of the first primary-search candidate's symbol
(stripped of any suffix) equals the queried ISIN, the suffix sweep is
skipped entirely — no probe in the whole resolution trace carries the
suffix-sweep stage. -/
theorem suffix_sweep_skipped (env : Env) (isin : String) (quotes : List SearchQuote)
    (q0 : SearchQuote) (hs : env.search isin = .ok quotes) (hh : quotes.head? = some q0)
    (hb : rsplitBase (q0.symbol.getD "") = isin) :
    ∀ p ∈ (YahooFinanceService.search_by_isin env isin).2,
      p.stage ≠ YahooFinanceService.Stage.suffix := by
  intro p hp
  unfold YahooFinanceService.search_by_isin at hp
  cases hv : is_valid_isin isin with
  | false => simp [hv] at hp
  | true =>
    simp only [hv, hs] at hp
    simp at hp
    unfold YahooFinanceService.resolveStages at hp
    simp only [hh] at hp
    by_cases h0 : q0.symbol.getD "" = ""
    · simp [h0] at hp
      exact tryJustetfFallback_stage env isin p hp
    · simp only [h0, if_neg, if_false, reduceIte] at hp
      rcases ht : YahooFinanceService.tryGetInstrumentInfo env isin (q0.symbol.getD "") q0
          with _ | out
      · simp only [ht, hb, if_pos, if_true, reduceIte] at hp
        rcases hn : pyOrS q0.shortname q0.longname with _ | nm
        · simp only [hn, List.append_nil, List.nil_append] at hp
          simp only [List.mem_append, List.mem_singleton] at hp
          rcases hp with rfl | hp
          · intro hcon; exact YahooFinanceService.Stage.noConfusion hcon
          · exact tryJustetfFallback_stage env isin p hp
        · by_cases hnm : nm = ""
          · simp only [hn, hnm, if_pos, if_true, reduceIte, List.append_nil,
              List.nil_append, List.mem_append, List.mem_singleton] at hp
            rcases hp with rfl | hp
            · intro hcon; exact YahooFinanceService.Stage.noConfusion hcon
            · exact tryJustetfFallback_stage env isin p hp
          · simp only [hn, hnm, if_neg, if_false, reduceIte, List.append_nil,
              List.nil_append] at hp
            rcases hbn : (YahooFinanceService.trySearchByNameFallback env isin nm).1
                with _ | out3
            all_goals simp only [hbn, List.append_assoc, List.mem_append,
              List.mem_singleton] at hp
            · rcases hp with rfl | hp | hp
              · intro hcon; exact YahooFinanceService.Stage.noConfusion hcon
              · rw [trySearchByNameFallback_stage env isin nm p hp]
                intro hcon; exact YahooFinanceService.Stage.noConfusion hcon
              · exact tryJustetfFallback_stage env isin p hp
            · rcases hp with rfl | hp
              · intro hcon; exact YahooFinanceService.Stage.noConfusion hcon
              · rw [trySearchByNameFallback_stage env isin nm p hp]
                intro hcon; exact YahooFinanceService.Stage.noConfusion hcon
      · simp only [ht] at hp
        rcases List.mem_singleton.mp hp with rfl
        intro hcon; exact YahooFinanceService.Stage.noConfusion hcon

/-- Witness for C5: the documented scenario, ISIN `"IE00BK5BQT80"`
echoed back unchanged by the primary search; no suffix-stage probe
occurs. -/
theorem suffix_sweep_skipped_witness :
    envSkip.search "IE00BK5BQT80" = .ok [⟨some "IE00BK5BQT80", none, none⟩] ∧
    rsplitBase ((⟨some "IE00BK5BQT80", none, none⟩ : SearchQuote).symbol.getD "") =
      "IE00BK5BQT80" ∧
    ∀ p ∈ (YahooFinanceService.search_by_isin envSkip "IE00BK5BQT80").2,
      p.stage ≠ YahooFinanceService.Stage.suffix := by
  refine ⟨rfl, rfl, ?_⟩
  exact suffix_sweep_skipped envSkip "IE00BK5BQT80" [⟨some "IE00BK5BQT80", none, none⟩]
    ⟨some "IE00BK5BQT80", none, none⟩ rfl rfl rfl

lemma crossLoop_none (env : Env) (isin : String) (ti : TickerInfo) (base : String) :
    ∀ l : List String,
      (∀ suf ∈ l, YahooFinanceService.tryGetInstrumentInfo env isin (base ++ suf)
        ⟨none, some ti.name, none⟩ = none) →
      (YahooFinanceService.crossLoop env isin ti base l).1 = none := by
  intro l
  induction l with
  | nil => intro _; simp [YahooFinanceService.crossLoop]
  | cons suf rest ih =>
    intro h
    rw [YahooFinanceService.crossLoop]
    by_cases h1 : base ++ suf = ti.symbol
    · rw [if_pos h1]
      exact ih (fun s hs => h s (List.mem_cons_of_mem _ hs))
    · rw [if_neg h1]
      have h2 := h suf (List.mem_cons_self _ _)
      simp only [h2]
      exact ih (fun s hs => h s (List.mem_cons_of_mem _ hs))

/-- C6: when the secondary provider supplies a suggestion and the direct
probe, the whole cross-pollination sweep and the name-based search all
fail, the raw suggestion is still returned as an `InstrumentRecord` with
type forced to `"etf"` and symbol, name, currency and exchange taken
unchanged from the suggestion. -/
theorem justetf_degraded_record (env : Env) (isin : String) (ti : TickerInfo)
    (hp : env.justetf isin = .ok (some ti))
    (hd : YahooFinanceService.tryGetInstrumentInfo env isin ti.symbol
        ⟨none, some ti.name, none⟩ = none)
    (hc : ∀ suf ∈ YahooFinanceService.FALLBACK_SUFFIXES,
        YahooFinanceService.tryGetInstrumentInfo env isin (splitFirst ti.symbol ++ suf)
          ⟨none, some ti.name, none⟩ = none)
    (hn : (YahooFinanceService.trySearchByNameFallback env isin ti.name).1 = none) :
    (YahooFinanceService.tryJustetfFallback env isin).1 =
      some ⟨isin, ti.symbol, ti.name, "etf", ti.currency, ti.exchange⟩ := by
  have hcross := crossLoop_none env isin ti (splitFirst ti.symbol)
    YahooFinanceService.FALLBACK_SUFFIXES hc
  unfold YahooFinanceService.tryJustetfFallback
  simp only [hp, hd, hcross, hn]

/-- Witness for C6: in `envDegraded` every probe fails and the raw
justETF suggestion `tiDeg` is returned with type `"etf"`. -/
theorem justetf_degraded_record_witness :
    envDegraded.justetf "IE00B4L5Y983" = .ok (some tiDeg) ∧
    (YahooFinanceService.tryJustetfFallback envDegraded "IE00B4L5Y983").1 =
      some ⟨"IE00B4L5Y983", "ZZZZ.DE", "Global Fund", "etf", "EUR", "XETRA"⟩ := by
  refine ⟨rfl, ?_⟩
  exact justetf_degraded_record envDegraded "IE00B4L5Y983" tiDeg rfl rfl (by decide) rfl

lemma batchCollect_fst {β : Type} (l : List (String × Option β × Option String)) :
    (YahooFinanceService.batchCollect l).1 = l.filterMap successOf := by
  induction l with
  | nil => rfl
  | cons x rest ih =>
    rcases x with ⟨k, r, e⟩
    rcases r with _ | rv
    · rcases e with _ | ev
      all_goals simp [YahooFinanceService.batchCollect, successOf, List.filterMap_cons, ih]
    · simp [YahooFinanceService.batchCollect, successOf, List.filterMap_cons, ih]

lemma batchCollect_snd {β : Type} (l : List (String × Option β × Option String)) :
    (YahooFinanceService.batchCollect l).2 = l.filterMap errorOf := by
  induction l with
  | nil => rfl
  | cons x rest ih =>
    rcases x with ⟨k, r, e⟩
    rcases r with _ | rv
    · rcases e with _ | ev
      all_goals simp [YahooFinanceService.batchCollect, errorOf, List.filterMap_cons, ih]
    · simp [YahooFinanceService.batchCollect, errorOf, List.filterMap_cons, ih]

lemma batchCollect_length {β : Type} (l : List (String × Option β × Option String))
    (h : ∀ x ∈ l, x.2.1 = none → x.2.2 ≠ none) :
    (YahooFinanceService.batchCollect l).1.length +
      (YahooFinanceService.batchCollect l).2.length = l.length := by
  induction l with
  | nil => rfl
  | cons x rest ih =>
    have hrest := ih (fun y hy => h y (List.mem_cons_of_mem _ hy))
    rcases x with ⟨k, r, e⟩
    rcases r with _ | rv
    · rcases e with _ | ev
      · exact absurd rfl (h (k, none, none) (List.mem_cons_self _ _) rfl)
      · simp only [YahooFinanceService.batchCollect, List.length_cons]
        omega
    · simp only [YahooFinanceService.batchCollect, List.length_cons]
      omega

lemma searchWrapper_not_none (env : Env) (i : String) :
    (YahooFinanceService.searchWrapper env i).2.1 = none →
    (YahooFinanceService.searchWrapper env i).2.2 ≠ none := by
  unfold YahooFinanceService.searchWrapper
  rcases (YahooFinanceService.search_by_isin env i).1 with e | r
  · simp
  · rcases r with _ | rv <;> simp

lemma quoteWrapper_not_none (env : Env) (fuel : Nat) (s : String) :
    (YahooFinanceService.quoteWrapper env fuel s).2.1 = none →
    (YahooFinanceService.quoteWrapper env fuel s).2.2 ≠ none := by
  unfold YahooFinanceService.quoteWrapper
  rcases (YahooFinanceService.get_quote env fuel s).1 with e | r
  · simp
  · rcases r with _ | rv <;> simp

/-- C7: each batch operation accounts for every input item exactly once:
the successes are the items whose wrapper produced a result, the errors
are the items whose wrapper produced a key-tagged message, and the two
lengths always sum to the input length; in the concrete three-item
scenario where item 2 raises, there are exactly 2 successes and exactly
1 error carrying item 2's key. -/
theorem batch_accounts_for_every_item (env : Env) (fuel : Nat)
    (isins symbols : List String) :
    ((YahooFinanceService.batch_search_by_isins env isins).1.length +
       (YahooFinanceService.batch_search_by_isins env isins).2.length = isins.length ∧
     (YahooFinanceService.batch_search_by_isins env isins).1 =
       isins.filterMap (fun i => successOf (YahooFinanceService.searchWrapper env i)) ∧
     (YahooFinanceService.batch_search_by_isins env isins).2 =
       isins.filterMap (fun i => errorOf (YahooFinanceService.searchWrapper env i))) ∧
    ((YahooFinanceService.batch_get_quotes env fuel symbols).1.length +
       (YahooFinanceService.batch_get_quotes env fuel symbols).2.length = symbols.length ∧
     (YahooFinanceService.batch_get_quotes env fuel symbols).1 =
       symbols.filterMap (fun s => successOf (YahooFinanceService.quoteWrapper env fuel s)) ∧
     (YahooFinanceService.batch_get_quotes env fuel symbols).2 =
       symbols.filterMap (fun s => errorOf (YahooFinanceService.quoteWrapper env fuel s))) ∧
    ((YahooFinanceService.batch_search_by_isins envBatch batchIsins).1.length = 2 ∧
     (YahooFinanceService.batch_search_by_isins envBatch batchIsins).2 =
       [("US0000000002", "boom")]) := by
  refine ⟨⟨?_, ?_, ?_⟩, ⟨?_, ?_, ?_⟩, rfl, rfl⟩
  · have h : ∀ x ∈ isins.map (YahooFinanceService.searchWrapper env),
        x.2.1 = none → x.2.2 ≠ none := by
      intro x hx
      obtain ⟨i, _, rfl⟩ := List.mem_map.mp hx
      exact searchWrapper_not_none env i
    have := batchCollect_length (isins.map (YahooFinanceService.searchWrapper env)) h
    simpa [YahooFinanceService.batch_search_by_isins] using this
  · simp only [YahooFinanceService.batch_search_by_isins, batchCollect_fst, List.filterMap_map]
    rfl
  · simp only [YahooFinanceService.batch_search_by_isins, batchCollect_snd, List.filterMap_map]
    rfl
  · have h : ∀ x ∈ symbols.map (YahooFinanceService.quoteWrapper env fuel),
        x.2.1 = none → x.2.2 ≠ none := by
      intro x hx
      obtain ⟨s, _, rfl⟩ := List.mem_map.mp hx
      exact quoteWrapper_not_none env fuel s
    have := batchCollect_length (symbols.map (YahooFinanceService.quoteWrapper env fuel)) h
    simpa [YahooFinanceService.batch_get_quotes] using this
  · simp only [YahooFinanceService.batch_get_quotes, batchCollect_fst, List.filterMap_map]
    rfl
  · simp only [YahooFinanceService.batch_get_quotes, batchCollect_snd, List.filterMap_map]
    rfl

/-- C9: when the initial price probe is invalid, the base part matches
the ISIN pattern, resolution yields an instrument with a different
symbol, and the retried probe has a valid price, `get_quote` returns a
record whose symbol field is the corrected symbol — not the symbol the
caller requested. -/
theorem get_quote_returns_corrected_symbol (env : Env) (fuel : Nat) (symbol : String)
    (inst : InstrumentResponse) (p0 : Option PVal) (c0 : String) (q : ℚ) (c2 : String)
    (hq1 : YahooFinanceService.quoteProbe env symbol = .ok (p0, c0))
    (hp0 : priceInvalid p0 = true)
    (hb : reMatchIsinDollar (YahooFinanceService.basePartOf symbol).data = true)
    (hs : (YahooFinanceService.search_by_isin env
        (YahooFinanceService.basePartOf symbol)).1 = .ok (some inst))
    (hne : inst.symbol ≠ symbol)
    (hq2 : YahooFinanceService.quoteProbe env inst.symbol = .ok (some (PVal.num q), c2))
    (hq : 0 < q) :
    (YahooFinanceService.get_quote env (fuel + 2) symbol).1 =
      .ok (some ⟨inst.symbol, q, c2, env.now⟩) ∧ inst.symbol ≠ symbol := by
  refine ⟨?_, hne⟩
  have hrec : YahooFinanceService.get_quote env (fuel + 1) inst.symbol =
      (.ok (some ⟨inst.symbol, q, c2, env.now⟩), 1) := by
    rw [YahooFinanceService.get_quote]
    simp only [hq2]
    rw [if_neg (not_le.mpr hq)]
  have h22 : fuel + 2 = (fuel + 1) + 1 := rfl
  rw [h22, YahooFinanceService.get_quote]
  simp only [hq1]
  rcases p0 with _ | v
  · simp only [hb, if_pos, if_true, reduceIte, hs, hne, ite_true, hrec, ne_eq,
      not_false_iff]
  · rcases v with _ | q0
    · simp only [hb, if_pos, if_true, reduceIte, hs, hne, ite_true, hrec, ne_eq,
        not_false_iff]
    · have hq0 : q0 ≤ 0 := of_decide_eq_true hp0
      simp only [if_pos hq0, hb, if_true, reduceIte, hs, hne, ite_true, hrec, ne_eq,
        not_false_iff]

/-- Witness for C9: `"IE00BK5BQT80.SG"` has no price, its base resolves
to `"NATO.L"`, and the returned quote carries symbol `"NATO.L"`. -/
theorem get_quote_returns_corrected_symbol_witness :
    YahooFinanceService.quoteProbe envRepairOk "IE00BK5BQT80.SG" = .ok (none, "USD") ∧
    (YahooFinanceService.search_by_isin envRepairOk "IE00BK5BQT80").1 =
      .ok (some ⟨"IE00BK5BQT80", "NATO.L", "Future of Defence", "etf", "GBP", "LSE"⟩) ∧
    (YahooFinanceService.get_quote envRepairOk 2 "IE00BK5BQT80.SG").1 =
      .ok (some ⟨"NATO.L", 50, "GBP", 7⟩) ∧ "NATO.L" ≠ "IE00BK5BQT80.SG" := by
  refine ⟨rfl, by rfl, ?_⟩
  exact get_quote_returns_corrected_symbol envRepairOk 0 "IE00BK5BQT80.SG"
    ⟨"IE00BK5BQT80", "NATO.L", "Future of Defence", "etf", "GBP", "LSE"⟩
    none "USD" 50 "GBP" rfl rfl (by decide) (by rfl) (by decide) rfl (by norm_num)

lemma cacheSet_blocked (st : JustETFProvider.ProviderState) (isin : String)
    (info : TickerInfo) :
    (JustETFProvider.cacheSet st isin info).blocked_until = st.blocked_until := by
  unfold JustETFProvider.cacheSet
  split_ifs <;> rfl

/-- C3: the circuit breaker of the secondary provider — while blocked
and on a cache miss the call returns absent with zero network calls; at
or past expiry the breaker self-clears and network I/O is attempted
again (re-opening only on a fresh 403); an HTTP 403 opens the breaker
until `now + 10` minutes; network failures and non-403 HTTP errors
return absent and leave the breaker closed. -/
theorem justetf_circuit_breaker (st : JustETFProvider.ProviderState) (now t : ℤ)
    (http : String → JustETFProvider.HttpOutcome) (isin : String)
    (hmiss : JustETFProvider.cacheGet st isin = none) :
    (st.blocked_until = some t → now < t →
       JustETFProvider.search_by_isin st now http isin = (st, none, 0)) ∧
    (st.blocked_until = some t → t ≤ now →
       (JustETFProvider.search_by_isin st now http isin).2.2 = 1 ∧
       ((JustETFProvider.search_by_isin st now http isin).1.blocked_until = none ∨
        (JustETFProvider.search_by_isin st now http isin).1.blocked_until =
          some (now + 10))) ∧
    ((∀ u, st.blocked_until = some u → u ≤ now) →
       (∃ p, http isin = .resp 403 p) →
       (JustETFProvider.search_by_isin st now http isin).1.blocked_until =
         some (now + 10) ∧
       (JustETFProvider.search_by_isin st now http isin).2.1 = none) ∧
    (st.blocked_until = none →
       (http isin = .netErr ∨ ∃ s p, http isin = .resp s p ∧ 400 ≤ s ∧ s ≠ 403) →
       (JustETFProvider.search_by_isin st now http isin).1.blocked_until = none ∧
       (JustETFProvider.search_by_isin st now http isin).2.1 = none ∧
       (JustETFProvider.search_by_isin st now http isin).2.2 = 1) := by
  have hclear : ∀ hnb : (∀ u, st.blocked_until = some u → u ≤ now),
      JustETFProvider.isBlockedStep st now = (false, { st with blocked_until := none }) := by
    intro hnb
    unfold JustETFProvider.isBlockedStep
    rcases hbu : st.blocked_until with _ | u
    · rfl
    · dsimp only
      rw [if_neg (not_lt.mpr (hnb u hbu))]
  refine ⟨?_, ?_, ?_, ?_⟩
  · intro hb hlt
    have hstep : JustETFProvider.isBlockedStep st now = (true, st) := by
      unfold JustETFProvider.isBlockedStep
      rw [hb]
      dsimp only
      rw [if_pos hlt]
    unfold JustETFProvider.search_by_isin
    simp only [hmiss, hstep, if_true, reduceIte]
  · intro hb hle
    have hstep := hclear (fun u hu => by rw [hb] at hu; injection hu with h2; omega)
    unfold JustETFProvider.search_by_isin
    simp only [hmiss, hstep, if_false, reduceIte, Bool.false_eq_true]
    rcases hh : http isin with _ | ⟨status, page⟩
    · simp [hh]
    · simp only [hh]
      by_cases h403 : status = 403
      · simp [h403]
      · by_cases herr : 400 ≤ status
        · simp [h403, herr]
        · rcases ht : page.ticker with _ | tick
          · simp [h403, herr, ht]
          · simp [h403, herr, ht, cacheSet_blocked]
  · rintro hnb ⟨p, hp⟩
    have hstep := hclear hnb
    unfold JustETFProvider.search_by_isin
    simp only [hmiss, hstep, if_false, reduceIte, Bool.false_eq_true, hp]
    simp
  · intro hb0 herr
    have hstep := hclear (fun u hu => by rw [hb0] at hu; exact Option.noConfusion hu)
    unfold JustETFProvider.search_by_isin
    simp only [hmiss, hstep, if_false, reduceIte, Bool.false_eq_true]
    rcases herr with hne | ⟨s, p, hsp, hs400, hs403⟩
    · simp [hne]
    · simp only [hsp]
      rw [if_neg hs403, if_pos hs400]
      exact ⟨rfl, rfl, rfl⟩

/-- Witness for C3: a call at minute 5 against a breaker open until
minute 10 performs no network call and returns absent; on a fresh state
a 403 response opens the breaker until minute 10. -/
theorem justetf_circuit_breaker_witness :
    JustETFProvider.cacheGet stBlocked "IE00B4ND3602" = none ∧
    JustETFProvider.search_by_isin stBlocked 5 http403 "IE00B4ND3602" =
      (stBlocked, none, 0) ∧
    JustETFProvider.cacheGet st0 "IE00B4ND3602" = none ∧
    (JustETFProvider.search_by_isin st0 0 http403 "IE00B4ND3602").1.blocked_until =
      some 10 ∧
    (JustETFProvider.search_by_isin st0 0 http403 "IE00B4ND3602").2.1 = none := by
  have h2 := (justetf_circuit_breaker st0 0 0 http403 "IE00B4ND3602" rfl).2.2.1
    (fun u hu => Option.noConfusion hu) ⟨pageEmpty, rfl⟩
  refine ⟨rfl, ?_, rfl, ?_, h2.2⟩
  · exact (justetf_circuit_breaker stBlocked 5 10 http403 "IE00B4ND3602" rfl).1 rfl
      (by norm_num)
  · exact h2.1
